import Mathlib

/-!
Shallow embedding of `plugins.v2/mediaserverrefreshjuly/__init__.py`
(class `MediaServerRefreshJuly`).

Modelling conventions:
* Python floats are modelled as exact rationals (`ℚ`).  `str` on a float is
  modelled by `floatToStr` (exact terminating decimal expansion — every IEEE
  float is a dyadic rational, hence has one); `float(...)` on a string is
  modelled by `parsePyFloat`, a parser for the `[sign] digits [. digits]`
  subset of Python's float grammar (whitespace / exponents / inf / nan not
  modelled).  An unparsable string maps to `none`, modelling a `ValueError`.
* `hashlib.sha1(...).hexdigest()` is an opaque pure function supplied by the
  environment (`Env.sha1hex`).
* `str(Path(p))` is modelled by `pathlibStr` (PurePosixPath normalisation:
  duplicate slashes, `.` components and trailing slashes dropped, the
  double-slash root kept).
* `time.time()` is sampled twice by the handler (line 208 and line 215 of the
  source); the two samples are the environment's `timeCheck` and `timeWrite`.
* Filesystem faults (unreadable lock file, failing mkdir/touch/write) are
  injected through the boolean fields of `Env`; the filesystem itself is an
  association list of file path → contents plus a list of created directories.
* `MediaServerHelper.get_services` is modelled as the fixed mapping
  `Env.getServices`, so the two reads of the `service_infos` property inside
  one invocation (guard at line 184, dispatch at line 237) agree.
* The observable behaviour of one invocation of `refresh` is its `RunResult`:
  the final filesystem, the ordered trace of effects (sleeps, dispatch calls,
  the two interesting log sites) and the outcome (normal return or a raised
  exception that propagates to the caller).
-/

namespace MediaServerRefreshJuly

/-- Value of a decimal digit character, `none` for a non-digit. -/
def digitVal (c : Char) : Option Nat :=
  if 48 ≤ c.toNat ∧ c.toNat ≤ 57 then some (c.toNat - 48) else none

/-- The decimal digit character for `d < 10`. -/
def digitChar (d : Nat) : Char := Char.ofNat (48 + d)

/-- Big-endian decimal digits of `n`, fuel-driven so that it reduces in the
kernel. `natToStrAux fuel n` is correct whenever `n ≤ fuel`. -/
def natToStrAux : Nat → Nat → List Char
  | 0, _ => []
  | fuel + 1, n => if n = 0 then [] else natToStrAux fuel (n / 10) ++ [digitChar (n % 10)]

/-- Decimal representation of a natural number, as Python `str` renders it. -/
def natToChars (n : Nat) : List Char := if n = 0 then ['0'] else natToStrAux n n

/-- Fold a big-endian decimal digit string onto an accumulator;
`none` as soon as a non-digit appears. -/
def parseDigitsAux : Nat → List Char → Option Nat
  | acc, [] => some acc
  | acc, c :: cs =>
    match digitVal c with
    | some d => parseDigitsAux (acc * 10 + d) cs
    | none => none

/-- Split a character list at its first `'.'`; `none` when there is none. -/
def splitDot : List Char → Option (List Char × List Char)
  | [] => none
  | c :: cs =>
    if c = '.' then some ([], cs)
    else
      match splitDot cs with
      | none => none
      | some (a, b) => some (c :: a, b)

/-- Python `float` on an unsigned literal `digits [. digits]`. -/
def parseUnsignedChars (cs : List Char) : Option ℚ :=
  match splitDot cs with
  | none =>
    if cs.isEmpty then none
    else
      match parseDigitsAux 0 cs with
      | some n => some (n : ℚ)
      | none => none
  | some (a, b) =>
    if a.isEmpty && b.isEmpty then none
    else
      match parseDigitsAux 0 a, parseDigitsAux 0 b with
      | some i, some f => some (((i : ℚ) * 10 ^ b.length + (f : ℚ)) / 10 ^ b.length)
      | _, _ => none

/-- Python `float` on a possibly signed literal. -/
def parseFloatChars : List Char → Option ℚ
  | [] => none
  | c :: cs =>
    if c = '-' then (parseUnsignedChars cs).map (fun q => -q)
    else if c = '+' then parseUnsignedChars cs
    else parseUnsignedChars (c :: cs)

/-- Python `float(s)` (on the modelled subset of the grammar). -/
def parsePyFloat (s : String) : Option ℚ := parseFloatChars s.data

/-- Multiplicity of the factor `p` in `n` (fuel-driven, kernel-reducible);
`factorMultAux p fuel n` is meaningful whenever `n ≤ fuel`. -/
def factorMultAux (p : Nat) : Nat → Nat → Nat
  | 0, _ => 0
  | fuel + 1, n => if 2 ≤ p ∧ n ≠ 0 ∧ p ∣ n then factorMultAux p fuel (n / p) + 1 else 0

/-- Multiplicity of the factor `p` in `n`. -/
def factorMult (p n : Nat) : Nat := factorMultAux p n n

/-- Left-pad a digit string with zeros to length `e`. -/
def padZeros (e : Nat) (cs : List Char) : List Char :=
  List.replicate (e - cs.length) '0' ++ cs

/-- Python `str` on a nonnegative float, as characters: the exact decimal
expansion `int.frac` (with a `.0` fractional part for integral values, as
Python prints).  A rational whose denominator is not 10-smooth has no finite
decimal expansion (impossible for an actual float); those fall into an
inert fallback branch. -/
def floatCharsNN (q : ℚ) : List Char :=
  let n := q.num.toNat
  let d := q.den
  let e := max (factorMult 2 d) (factorMult 5 d)
  if d ∣ 10 ^ e then
    let scaled := n * 10 ^ e / d
    if e = 0 then natToChars scaled ++ ['.', '0']
    else natToChars (scaled / 10 ^ e) ++ '.' :: padZeros e (natToChars (scaled % 10 ^ e))
  else natToChars n ++ '/' :: natToChars d

/-- Python `str(run_time)` for the float `run_time` (source line 218). -/
def floatToStr (q : ℚ) : String :=
  if q < 0 then String.mk ('-' :: floatCharsNN (-q)) else String.mk (floatCharsNN q)

/-- Split a character list on `'/'`. -/
def splitSlash : List Char → List (List Char)
  | [] => [[]]
  | c :: cs =>
    if c = '/' then [] :: splitSlash cs
    else
      match splitSlash cs with
      | [] => [[c]]
      | g :: gs => (c :: g) :: gs

/-- Interleave `'/'` between path components. -/
def joinSlash : List (List Char) → List Char
  | [] => []
  | [c] => c
  | c :: cs => c ++ '/' :: joinSlash cs

/-- `str(PurePosixPath(p))`: drop empty and `.` components, keep the root
(`//` root preserved, three or more slashes collapse to one), `.` for an
empty path. -/
def pathlibStr (p : String) : String :=
  let comps := (splitSlash p.data).filter (fun c => decide (c ≠ [] ∧ c ≠ ['.']))
  let root : List Char :=
    match p.data with
    | '/' :: '/' :: '/' :: _ => ['/']
    | '/' :: '/' :: _ => ['/', '/']
    | '/' :: _ => ['/']
    | _ => []
  if comps.isEmpty then (if root.isEmpty then "." else String.mk root)
  else String.mk (root ++ joinSlash comps)

/-- Raw configured value of `_delay`: `config.get("delay")` may hold a number
or a string (the form field is a text field). -/
inductive ConfVal where
  | num (q : ℚ)
  | str (s : String)
deriving DecidableEq

/-- Python truthiness of a delay value (`if self._delay:`, line 192). -/
def ConfVal.truthy : ConfVal → Bool
  | .num q => decide (q ≠ 0)
  | .str s => s != ""

/-- Python `float(self._delay)` (line 193): identity on numbers, parse on
strings; `none` models the uncaught `ValueError`. -/
def ConfVal.toFloat : ConfVal → Option ℚ
  | .num q => some q
  | .str s => parsePyFloat s

/-- `transferinfo.target_diritem`. -/
structure DirItem where
  path : String
deriving DecidableEq

/-- `transferinfo` as far as the handler touches it. -/
structure TransferInfo where
  target_diritem : Option DirItem
deriving DecidableEq

/-- `mediainfo` fields read by the handler (lines 229-232). -/
structure MediaInfo where
  title : String
  year : String
  mtype : String
  category : String
deriving DecidableEq

/-- `event.event_data` payload; an absent key maps to `none`. -/
structure Payload where
  transferinfo : Option TransferInfo
  mediainfo : Option MediaInfo
deriving DecidableEq

/-- A media-server client instance: liveness, the two capability probes
(`hasattr`, lines 238/240) and fault injection for the two dispatch calls. -/
structure ServiceInstance where
  inactive : Bool
  hasRefreshByItems : Bool
  hasRefreshRoot : Bool
  refreshByItemsRaises : Bool
  refreshRootRaises : Bool
deriving DecidableEq

/-- One resolved service (`ServiceInfo` of the host schema). -/
structure ServiceInfo where
  inst : ServiceInstance
deriving DecidableEq

/-- The record built at lines 227-235 and passed to item-scoped refresh. -/
structure RefreshMediaItem where
  title : String
  year : String
  mtype : String
  category : String
  target_path : String
deriving DecidableEq

/-- Exceptions the handler can raise to its caller. -/
inductive PyExn where
  | valueError
  | attributeError
  | dispatchError (name : String)
deriving DecidableEq

/-- Normal return or a propagated exception. -/
inductive Outcome where
  | ok
  | raise (e : PyExn)
deriving DecidableEq

/-- Observable effects of one invocation, in order. -/
inductive Effect where
  | sleep (secs : ℚ)
  | refreshByItems (name : String) (item : RefreshMediaItem)
  | refreshRoot (name : String)
  | logUnsupported (name : String)
  | logLockFail
deriving DecidableEq

/-- Filesystem: contents per file path, plus the set of created directories. -/
structure FS where
  files : List (String × String)
  dirs : List String
deriving DecidableEq

/-- Contents of file `p`, `none` when it does not exist. -/
def lookupFile : List (String × String) → String → Option String
  | [], _ => none
  | kv :: rest, p => if kv.1 = p then some kv.2 else lookupFile rest p

/-- Overwrite (mode `"w"`) the contents of `p`. -/
def setFile (files : List (String × String)) (p c : String) : List (String × String) :=
  (p, c) :: files.filter (fun kv => kv.1 != p)

/-- Per-invocation environment: config root, hash function, resolved
services, the two clock samples and the fault-injection flags. -/
structure Env where
  configPath : String
  sha1hex : String → String
  getServices : List (String × ServiceInfo)
  timeCheck : ℚ
  timeWrite : ℚ
  readRaises : Bool
  mkdirRaises : Bool
  touchRaises : Bool
  writeRaises : Bool

/-- Plugin instance state set by `init_plugin`. -/
structure PluginState where
  enabled : Bool
  delay : ConfVal
  mediaservers : List String
deriving DecidableEq

/-- Raw `config` dict passed to `init_plugin`. -/
structure RawConfig where
  enabled : Bool
  delay : Option ConfVal
  mediaservers : Option (List String)
deriving DecidableEq

/-- `init_plugin` (lines 42-47): `_delay = config.get("delay") or 0`,
`_mediaservers = config.get("mediaservers") or []`. -/
def init_plugin (st : PluginState) (config : Option RawConfig) : PluginState :=
  match config with
  | none => st
  | some c =>
    { enabled := c.enabled
      delay :=
        match c.delay with
        | some v => if v.truthy then v else ConfVal.num 0
        | none => ConfVal.num 0
      mediaservers :=
        match c.mediaservers with
        | some l => if l.isEmpty then [] else l
        | none => [] }

/-- The `service_infos` property (lines 49-74): `none` when no server is
configured, the registry yields nothing, or no resolved service is active;
otherwise the name-keyed active services in registry order. -/
def serviceInfos (mediaservers : List String) (services : List (String × ServiceInfo)) :
    Option (List (String × ServiceInfo)) :=
  if mediaservers.isEmpty then none
  else if services.isEmpty then none
  else
    let active := services.filter (fun p => !p.2.inst.inactive)
    if active.isEmpty then none else some active

/-- The lock directory `<config_root>/media_refresh_lock` (line 198). -/
def lockDirFor (env : Env) : String :=
  pathlibStr env.configPath ++ "/media_refresh_lock"

/-- The lock file path
`<config_root>/media_refresh_lock/<sha1(str(Path(raw)))>.lock` (lines 194-198). -/
def lockPathFor (env : Env) (rawPath : String) : String :=
  lockDirFor env ++ "/" ++ env.sha1hex (pathlibStr rawPath) ++ ".lock"

/-- Lines 213-218: `mkdir(parents=True, exist_ok=True)`, `touch(exist_ok=True)`,
`run_time = time.time() + delay`, `f.write(str(run_time))`.  A fault at any
step is caught by the surrounding `except` (line 220), which logs and keeps
the filesystem effects already performed. -/
def lockWrite (env : Env) (fs : FS) (lockDir lockPath : String) (delay : ℚ) :
    FS × List Effect :=
  if env.mkdirRaises then (fs, [Effect.logLockFail])
  else
    let fs1 : FS := ⟨fs.files, lockDir :: fs.dirs⟩
    if env.touchRaises then (fs1, [Effect.logLockFail])
    else
      let fs2 : FS :=
        if (lookupFile fs1.files lockPath).isSome then fs1
        else ⟨(lockPath, "") :: fs1.files, fs1.dirs⟩
      if env.writeRaises then (fs2, [Effect.logLockFail])
      else (⟨setFile fs2.files lockPath (floatToStr (env.timeWrite + delay)), fs2.dirs⟩, [])

/-- The whole `try` block (lines 201-221).  Returns the filesystem after the
block, whether the handler must return immediately (the coalescing abort at
line 211), and the effects logged.  A raised error anywhere in the block is
caught: the remaining statements of the block are skipped and
`Effect.logLockFail` records the `except` branch. -/
def lockStep (env : Env) (fs : FS) (lockDir lockPath : String) (delay : ℚ) :
    FS × Bool × List Effect :=
  match lookupFile fs.files lockPath with
  | some content =>
    if env.readRaises then (fs, false, [Effect.logLockFail])
    else if content = "" then
      ((lockWrite env fs lockDir lockPath delay).1, false,
        (lockWrite env fs lockDir lockPath delay).2)
    else
      match parsePyFloat content with
      | none => (fs, false, [Effect.logLockFail])
      | some lockTime =>
        if env.timeCheck < lockTime then (fs, true, [])
        else
          ((lockWrite env fs lockDir lockPath delay).1, false,
            (lockWrite env fs lockDir lockPath delay).2)
  | none =>
    ((lockWrite env fs lockDir lockPath delay).1, false,
      (lockWrite env fs lockDir lockPath delay).2)

/-- The dispatch loop (lines 237-244) over the active services, in order.
A call that raises stops the loop and propagates (there is no `try` around
the loop); a service with neither capability is logged and skipped. -/
def dispatchAll (services : List (String × ServiceInfo)) (item : RefreshMediaItem) :
    List Effect × Outcome :=
  match services with
  | [] => ([], Outcome.ok)
  | (name, svc) :: rest =>
    if svc.inst.hasRefreshByItems then
      if svc.inst.refreshByItemsRaises then
        ([Effect.refreshByItems name item], Outcome.raise (PyExn.dispatchError name))
      else
        (Effect.refreshByItems name item :: (dispatchAll rest item).1,
          (dispatchAll rest item).2)
    else if svc.inst.hasRefreshRoot then
      if svc.inst.refreshRootRaises then
        ([Effect.refreshRoot name], Outcome.raise (PyExn.dispatchError name))
      else
        (Effect.refreshRoot name :: (dispatchAll rest item).1, (dispatchAll rest item).2)
    else
      (Effect.logUnsupported name :: (dispatchAll rest item).1, (dispatchAll rest item).2)

/-- Result of one invocation of the handler. -/
structure RunResult where
  fs : FS
  trace : List Effect
  outcome : Outcome
deriving DecidableEq

/-- Lines 226-244: read `mediainfo` (an absent key makes `mediainfo.title`
raise `AttributeError`, uncaught), build the `RefreshMediaItem`, run the
dispatch loop. -/
def dispatchPhase (ev : Payload) (di : DirItem) (active : List (String × ServiceInfo))
    (fs : FS) (tr : List Effect) : RunResult :=
  match ev.mediainfo with
  | none => ⟨fs, tr, Outcome.raise PyExn.attributeError⟩
  | some mi =>
    let item : RefreshMediaItem := ⟨mi.title, mi.year, mi.mtype, mi.category, pathlibStr di.path⟩
    ⟨fs, tr ++ (dispatchAll active item).1, (dispatchAll active item).2⟩

/-- The event handler `refresh` (lines 171-244): guards, delay-coalescing
branch (`if self._delay:` is a truthiness test), sleep, dispatch. -/
def refresh (st : PluginState) (env : Env) (fs : FS) (eventData : Option Payload) :
    RunResult :=
  if st.enabled = false then ⟨fs, [], Outcome.ok⟩
  else
    match eventData with
    | none => ⟨fs, [], Outcome.ok⟩
    | some ev =>
      match serviceInfos st.mediaservers env.getServices with
      | none => ⟨fs, [], Outcome.ok⟩
      | some active =>
        match ev.transferinfo with
        | none => ⟨fs, [], Outcome.ok⟩
        | some ti =>
          match ti.target_diritem with
          | none => ⟨fs, [], Outcome.ok⟩
          | some di =>
            if di.path = "" then ⟨fs, [], Outcome.ok⟩
            else
              if st.delay.truthy then
                match st.delay.toFloat with
                | none => ⟨fs, [], Outcome.raise PyExn.valueError⟩
                | some delay =>
                  let r := lockStep env fs (lockDirFor env) (lockPathFor env di.path) delay
                  if r.2.1 then ⟨r.1, r.2.2, Outcome.ok⟩
                  else dispatchPhase ev di active r.1 (r.2.2 ++ [Effect.sleep delay])
              else dispatchPhase ev di active fs []

/-- The raw target path carried by the event, `""` when absent. -/
def targetPathOf : Option Payload → String
  | some ev =>
    match ev.transferinfo with
    | some ti =>
      match ti.target_diritem with
      | some di => di.path
      | none => ""
    | none => ""
  | none => ""

/-- Whether an effect is a whole-library refresh call on service `name`. -/
def isRootCall (name : String) : Effect → Bool
  | .refreshRoot n => n == name
  | _ => false

/-- Whether an effect is an item-scoped refresh call on service `name`. -/
def isItemsCall (name : String) : Effect → Bool
  | .refreshByItems n _ => n == name
  | _ => false

/-! ### Helper lemmas -/

theorem lookupFile_setFile_self (files : List (String × String)) (p c : String) :
    lookupFile (setFile files p c) p = some c := by
  simp [setFile, lookupFile]

theorem lookupFile_filter_ne (files : List (String × String)) (p p' : String) (h : p' ≠ p) :
    lookupFile (files.filter (fun kv => kv.1 != p)) p' = lookupFile files p' := by
  induction files with
  | nil => rfl
  | cons kv rest ih =>
    by_cases hk : kv.1 = p
    · have hne : p ≠ p' := Ne.symm h
      simp [hk, lookupFile, hne, ih]
    · simp only [List.filter_cons]
      have : (kv.1 != p) = true := by simpa using hk
      simp [this, lookupFile, ih]

theorem lookupFile_setFile_ne (files : List (String × String)) (p c p' : String)
    (h : p' ≠ p) :
    lookupFile (setFile files p c) p' = lookupFile files p' := by
  have hne : p ≠ p' := Ne.symm h
  simp [setFile, lookupFile, hne, lookupFile_filter_ne files p p' h]

theorem dispatchPhase_fs (ev : Payload) (di : DirItem)
    (active : List (String × ServiceInfo)) (fs : FS) (tr : List Effect) :
    (dispatchPhase ev di active fs tr).fs = fs := by
  cases h : ev.mediainfo <;> simp [dispatchPhase, h]

theorem sleep_not_mem_dispatchAll (svcs : List (String × ServiceInfo))
    (item : RefreshMediaItem) (s : ℚ) :
    Effect.sleep s ∉ (dispatchAll svcs item).1 := by
  induction svcs with
  | nil => simp [dispatchAll]
  | cons hd tl ih =>
    rcases hd with ⟨name, svc⟩
    by_cases h1 : svc.inst.hasRefreshByItems = true <;>
      by_cases h2 : svc.inst.refreshByItemsRaises = true <;>
        by_cases h3 : svc.inst.hasRefreshRoot = true <;>
          by_cases h4 : svc.inst.refreshRootRaises = true <;>
            simp [dispatchAll, h1, h2, h3, h4, ih]

theorem dispatchAll_ok (svcs : List (String × ServiceInfo)) (item : RefreshMediaItem)
    (h : ∀ x ∈ svcs, x.2.inst.refreshByItemsRaises = false ∧
      x.2.inst.refreshRootRaises = false) :
    (dispatchAll svcs item).2 = Outcome.ok := by
  induction svcs with
  | nil => rfl
  | cons hd tl ih =>
    have ih' := ih fun x hx => h x (List.mem_cons_of_mem _ hx)
    rcases hd with ⟨name, svc⟩
    have h1 : svc.inst.refreshByItemsRaises = false :=
      (h (name, svc) (List.mem_cons_self _ _)).1
    have h2 : svc.inst.refreshRootRaises = false :=
      (h (name, svc) (List.mem_cons_self _ _)).2
    by_cases hi : svc.inst.hasRefreshByItems = true <;>
      by_cases hr : svc.inst.hasRefreshRoot = true <;>
        simp [dispatchAll, hi, hr, h1, h2, ih']

theorem dispatchAll_raise_at (pre : List (String × ServiceInfo)) (n : String)
    (svc : ServiceInfo) (rest : List (String × ServiceInfo)) (item : RefreshMediaItem)
    (hpre : ∀ x ∈ pre, x.2.inst.hasRefreshByItems = true ∧
      x.2.inst.refreshByItemsRaises = false)
    (hsvc : svc.inst.hasRefreshByItems = true)
    (hraise : svc.inst.refreshByItemsRaises = true) :
    dispatchAll (pre ++ (n, svc) :: rest) item =
      (pre.map (fun x => Effect.refreshByItems x.1 item) ++ [Effect.refreshByItems n item],
        Outcome.raise (PyExn.dispatchError n)) := by
  induction pre with
  | nil => simp [dispatchAll, hsvc, hraise]
  | cons hd tl ih =>
    rcases hd with ⟨nm, s⟩
    have h1 : s.inst.hasRefreshByItems = true := (hpre (nm, s) (List.mem_cons_self _ _)).1
    have h2 : s.inst.refreshByItemsRaises = false := (hpre (nm, s) (List.mem_cons_self _ _)).2
    have ih' := ih fun x hx => hpre x (List.mem_cons_of_mem _ hx)
    simp [dispatchAll, h1, h2, ih']

theorem dispatchAll_countP_zero (svcs : List (String × ServiceInfo))
    (item : RefreshMediaItem) (name : String)
    (hnm : name ∉ svcs.map Prod.fst) :
    ((dispatchAll svcs item).1.countP (isRootCall name)) = 0 ∧
    ((dispatchAll svcs item).1.countP (isItemsCall name)) = 0 := by
  induction svcs with
  | nil => simp [dispatchAll]
  | cons hd tl ih =>
    rcases hd with ⟨nm, s⟩
    simp only [List.map_cons, List.mem_cons, not_or] at hnm
    obtain ⟨hne, hnm'⟩ := hnm
    have ih' := ih hnm'
    have hb : (nm == name) = false := beq_eq_false_iff_ne.mpr fun h => hne h.symm
    by_cases h1 : s.inst.hasRefreshByItems = true <;>
      by_cases h2 : s.inst.refreshByItemsRaises = true <;>
        by_cases h3 : s.inst.hasRefreshRoot = true <;>
          by_cases h4 : s.inst.refreshRootRaises = true <;>
            simp [dispatchAll, h1, h2, h3, h4, List.countP_cons, isRootCall, isItemsCall,
              hb, ih'.1, ih'.2]

theorem dispatchAll_countP_of_mem (svcs : List (String × ServiceInfo))
    (item : RefreshMediaItem) (name : String) (svc : ServiceInfo)
    (hnd : (svcs.map Prod.fst).Nodup)
    (hmem : (name, svc) ∈ svcs)
    (hnr : ∀ x ∈ svcs, x.2.inst.refreshByItemsRaises = false ∧
      x.2.inst.refreshRootRaises = false)
    (hcap : svc.inst.hasRefreshByItems = false)
    (hroot : svc.inst.hasRefreshRoot = true) :
    ((dispatchAll svcs item).1.countP (isRootCall name)) = 1 ∧
    ((dispatchAll svcs item).1.countP (isItemsCall name)) = 0 := by
  induction svcs with
  | nil => cases hmem
  | cons hd tl ih =>
    rcases hd with ⟨nm, s⟩
    have hnd' := (List.nodup_cons.mp hnd).2
    have hnotin : nm ∉ tl.map Prod.fst := (List.nodup_cons.mp hnd).1
    rcases List.mem_cons.mp hmem with heq | hmem'
    · injection heq with e1 e2
      subst e1; subst e2
      have h2 : svc.inst.refreshRootRaises = false :=
        (hnr (name, svc) (List.mem_cons_self _ _)).2
      have hz := dispatchAll_countP_zero tl item name hnotin
      simp [dispatchAll, hcap, hroot, h2, List.countP_cons, isRootCall, isItemsCall,
        hz.1, hz.2]
    · have hne : nm ≠ name := by
        intro hcon
        exact hnotin (hcon ▸ List.mem_map_of_mem Prod.fst hmem')
      have hb : (nm == name) = false := beq_eq_false_iff_ne.mpr hne
      have h1 : s.inst.refreshByItemsRaises = false := (hnr (nm, s) (List.mem_cons_self _ _)).1
      have h2 : s.inst.refreshRootRaises = false := (hnr (nm, s) (List.mem_cons_self _ _)).2
      have ih' := ih hnd' hmem' fun x hx => hnr x (List.mem_cons_of_mem _ hx)
      by_cases hi : s.inst.hasRefreshByItems = true <;>
        by_cases hr : s.inst.hasRefreshRoot = true <;>
          simp [dispatchAll, hi, hr, h1, h2, List.countP_cons, isRootCall, isItemsCall,
            hb, ih'.1, ih'.2]

theorem dispatchAll_logUnsupported_mem (svcs : List (String × ServiceInfo))
    (item : RefreshMediaItem) (name : String) (svc : ServiceInfo)
    (hmem : (name, svc) ∈ svcs)
    (hnr : ∀ x ∈ svcs, x.2.inst.refreshByItemsRaises = false ∧
      x.2.inst.refreshRootRaises = false)
    (h1 : svc.inst.hasRefreshByItems = false)
    (h2 : svc.inst.hasRefreshRoot = false) :
    Effect.logUnsupported name ∈ (dispatchAll svcs item).1 := by
  induction svcs with
  | nil => cases hmem
  | cons hd tl ih =>
    rcases hd with ⟨nm, s⟩
    rcases List.mem_cons.mp hmem with heq | hmem'
    · injection heq with e1 e2
      subst e1; subst e2
      simp [dispatchAll, h1, h2]
    · have hr1 : s.inst.refreshByItemsRaises = false := (hnr (nm, s) (List.mem_cons_self _ _)).1
      have hr2 : s.inst.refreshRootRaises = false := (hnr (nm, s) (List.mem_cons_self _ _)).2
      have ih' := ih hmem' fun x hx => hnr x (List.mem_cons_of_mem _ hx)
      by_cases hi : s.inst.hasRefreshByItems = true <;>
        by_cases hr : s.inst.hasRefreshRoot = true <;>
          simp [dispatchAll, hi, hr, hr1, hr2, ih']

/-! ### Claims -/

/-- C2: with a configured positive delay, when the lock file for the target
path exists, is readable, is non-empty, and holds a timestamp strictly
greater than the current time, the invocation aborts entirely: no dispatch
call, no sleep, the filesystem (hence the lock file) unchanged, normal
return. -/
theorem claim_C2 (env : Env) (fs : FS) (q : ℚ) (ms : List String)
    (active : List (String × ServiceInfo)) (p : String) (mi : Option MediaInfo)
    (content : String) (t : ℚ)
    (hq : 0 < q) (hp : p ≠ "")
    (hsv : serviceInfos ms env.getServices = some active)
    (hread : env.readRaises = false)
    (hlk : lookupFile fs.files (lockPathFor env p) = some content)
    (hc : content ≠ "")
    (hpt : parsePyFloat content = some t)
    (hfut : env.timeCheck < t) :
    refresh ⟨true, ConfVal.num q, ms⟩ env fs (some ⟨some ⟨some ⟨p⟩⟩, mi⟩) =
      ⟨fs, [], Outcome.ok⟩ := by
  simp [refresh, lockStep, hsv, hread, hlk, hc, hpt, hfut, ConfVal.truthy,
    ConfVal.toFloat, hq.ne', hp]

/-- Witness for C2 at a concrete input. -/
theorem claim_C2_witness :
    refresh ⟨true, ConfVal.num 5, ["emby"]⟩
      ⟨"/config", fun _ => "h", [("emby", ⟨⟨false, true, true, false, false⟩⟩)],
        100, 100, false, false, false, false⟩
      ⟨[("/config/media_refresh_lock/h.lock", "200")], []⟩
      (some ⟨some ⟨some ⟨"/media/movie"⟩⟩, some ⟨"T", "2024", "movie", "cat"⟩⟩) =
      ⟨⟨[("/config/media_refresh_lock/h.lock", "200")], []⟩, [], Outcome.ok⟩ :=
  claim_C2
    ⟨"/config", fun _ => "h", [("emby", ⟨⟨false, true, true, false, false⟩⟩)],
      100, 100, false, false, false, false⟩
    ⟨[("/config/media_refresh_lock/h.lock", "200")], []⟩ 5 ["emby"]
    [("emby", ⟨⟨false, true, true, false, false⟩⟩)] "/media/movie"
    (some ⟨"T", "2024", "movie", "cat"⟩) "200" 200 (by decide) (by decide) (by decide)
    (by decide) (by decide) (by decide) (by decide) (by decide)

/-- C6: with configured delay `0` (a falsy value), the handler touches no
lock file, sleeps never, and dispatches immediately to the active services. -/
theorem claim_C6 (env : Env) (fs : FS) (ms : List String)
    (active : List (String × ServiceInfo)) (p : String) (mi : MediaInfo)
    (item : RefreshMediaItem)
    (hp : p ≠ "")
    (hsv : serviceInfos ms env.getServices = some active)
    (hit : item = ⟨mi.title, mi.year, mi.mtype, mi.category, pathlibStr p⟩) :
    refresh ⟨true, ConfVal.num 0, ms⟩ env fs (some ⟨some ⟨some ⟨p⟩⟩, some mi⟩) =
      ⟨fs, (dispatchAll active item).1, (dispatchAll active item).2⟩ ∧
    ∀ s, Effect.sleep s ∉ (dispatchAll active item).1 := by
  subst hit
  refine ⟨?_, fun s => sleep_not_mem_dispatchAll active _ s⟩
  simp [refresh, hsv, hp, ConfVal.truthy, dispatchPhase]

/-- Witness for C6 at a concrete input. -/
theorem claim_C6_witness :
    (refresh ⟨true, ConfVal.num 0, ["emby"]⟩
      ⟨"/config", fun _ => "h", [("emby", ⟨⟨false, true, true, false, false⟩⟩)],
        100, 100, false, false, false, false⟩
      ⟨[], []⟩
      (some ⟨some ⟨some ⟨"/media/movie"⟩⟩, some ⟨"T", "2024", "movie", "cat"⟩⟩) =
      ⟨⟨[], []⟩,
        (dispatchAll [("emby", ⟨⟨false, true, true, false, false⟩⟩)]
          ⟨"T", "2024", "movie", "cat", pathlibStr "/media/movie"⟩).1,
        (dispatchAll [("emby", ⟨⟨false, true, true, false, false⟩⟩)]
          ⟨"T", "2024", "movie", "cat", pathlibStr "/media/movie"⟩).2⟩) ∧
    ∀ s, Effect.sleep s ∉
      (dispatchAll [("emby", ⟨⟨false, true, true, false, false⟩⟩)]
        ⟨"T", "2024", "movie", "cat", pathlibStr "/media/movie"⟩).1 :=
  claim_C6
    ⟨"/config", fun _ => "h", [("emby", ⟨⟨false, true, true, false, false⟩⟩)],
      100, 100, false, false, false, false⟩
    ⟨[], []⟩ ["emby"] [("emby", ⟨⟨false, true, true, false, false⟩⟩)] "/media/movie"
    ⟨"T", "2024", "movie", "cat"⟩
    ⟨"T", "2024", "movie", "cat", pathlibStr "/media/movie"⟩ (by decide)
    (by decide) rfl

/-- C1 as stated is false: with two active services whose dispatch both would
be attempted, the first service's `refresh_library_by_items` raising makes the
handler propagate the error and the second service receives no dispatch call
(the trace holds only the first call). -/
theorem claim_C1_counterexample :
    refresh ⟨true, ConfVal.num 0, ["A", "B"]⟩
      ⟨"/config", fun _ => "h",
        [("A", ⟨⟨false, true, false, true, false⟩⟩), ("B", ⟨⟨false, true, true, false, false⟩⟩)],
        100, 100, false, false, false, false⟩
      ⟨[], []⟩ (some ⟨some ⟨some ⟨"/m"⟩⟩, some ⟨"T", "Y", "t", "c"⟩⟩) =
      ⟨⟨[], []⟩, [Effect.refreshByItems "A" ⟨"T", "Y", "t", "c", "/m"⟩],
        Outcome.raise (PyExn.dispatchError "A")⟩ := by decide

/-- C1 (amended): the dispatch loop has no exception handling, so when a
service's dispatch call raises, the services before it in the mapping have
already received their calls, the failing service receives its call, the
exception propagates to the caller, and no later service receives any
dispatch call. -/
theorem claim_C1 (env : Env) (fs : FS) (ms : List String)
    (pre rest : List (String × ServiceInfo)) (n : String) (svc : ServiceInfo)
    (p : String) (mi : MediaInfo) (item : RefreshMediaItem)
    (hp : p ≠ "")
    (hsv : serviceInfos ms env.getServices = some (pre ++ (n, svc) :: rest))
    (hpre : ∀ x ∈ pre, x.2.inst.hasRefreshByItems = true ∧
      x.2.inst.refreshByItemsRaises = false)
    (hsvc : svc.inst.hasRefreshByItems = true)
    (hraise : svc.inst.refreshByItemsRaises = true)
    (hit : item = ⟨mi.title, mi.year, mi.mtype, mi.category, pathlibStr p⟩) :
    refresh ⟨true, ConfVal.num 0, ms⟩ env fs (some ⟨some ⟨some ⟨p⟩⟩, some mi⟩) =
      ⟨fs, pre.map (fun x => Effect.refreshByItems x.1 item) ++
        [Effect.refreshByItems n item],
        Outcome.raise (PyExn.dispatchError n)⟩ := by
  subst hit
  simp [refresh, hsv, hp, ConfVal.truthy, dispatchPhase,
    dispatchAll_raise_at pre n svc rest _ hpre hsvc hraise]

/-- Witness for the amended C1 at a concrete input. -/
theorem claim_C1_witness :
    refresh ⟨true, ConfVal.num 0, ["A", "B", "C"]⟩
      ⟨"/config", fun _ => "h",
        [("A", ⟨⟨false, true, false, false, false⟩⟩),
         ("B", ⟨⟨false, true, false, true, false⟩⟩),
         ("C", ⟨⟨false, true, true, false, false⟩⟩)],
        100, 100, false, false, false, false⟩
      ⟨[], []⟩ (some ⟨some ⟨some ⟨"/m"⟩⟩, some ⟨"T", "Y", "t", "c"⟩⟩) =
      ⟨⟨[], []⟩,
        ([("A", (⟨⟨false, true, false, false, false⟩⟩ : ServiceInfo))].map
          fun x => Effect.refreshByItems x.1 ⟨"T", "Y", "t", "c", pathlibStr "/m"⟩) ++
          [Effect.refreshByItems "B" ⟨"T", "Y", "t", "c", pathlibStr "/m"⟩],
        Outcome.raise (PyExn.dispatchError "B")⟩ :=
  claim_C1
    ⟨"/config", fun _ => "h",
      [("A", ⟨⟨false, true, false, false, false⟩⟩),
       ("B", ⟨⟨false, true, false, true, false⟩⟩),
       ("C", ⟨⟨false, true, true, false, false⟩⟩)],
      100, 100, false, false, false, false⟩
    ⟨[], []⟩ ["A", "B", "C"]
    [("A", ⟨⟨false, true, false, false, false⟩⟩)]
    [("C", ⟨⟨false, true, true, false, false⟩⟩)] "B"
    ⟨⟨false, true, false, true, false⟩⟩ "/m" ⟨"T", "Y", "t", "c"⟩
    ⟨"T", "Y", "t", "c", pathlibStr "/m"⟩ (by decide) (by decide) (by decide)
    (by decide) (by decide) rfl

/-- C9: in a run where no dispatch call raises and service names are
distinct, an active service lacking the item-scoped capability but
supporting whole-library refresh receives exactly one whole-library call and
zero item-scoped calls; an active service supporting neither capability is
skipped with the unsupported-service log message. -/
theorem claim_C9 (env : Env) (fs : FS) (ms : List String)
    (active : List (String × ServiceInfo)) (p : String) (mi : MediaInfo)
    (item : RefreshMediaItem) (r : RunResult)
    (hp : p ≠ "")
    (hsv : serviceInfos ms env.getServices = some active)
    (hit : item = ⟨mi.title, mi.year, mi.mtype, mi.category, pathlibStr p⟩)
    (hr : r = refresh ⟨true, ConfVal.num 0, ms⟩ env fs (some ⟨some ⟨some ⟨p⟩⟩, some mi⟩))
    (hnd : (active.map Prod.fst).Nodup)
    (hnr : ∀ x ∈ active, x.2.inst.refreshByItemsRaises = false ∧
      x.2.inst.refreshRootRaises = false) :
    (∀ name svc, (name, svc) ∈ active → svc.inst.hasRefreshByItems = false →
      svc.inst.hasRefreshRoot = true →
      r.trace.countP (isRootCall name) = 1 ∧ r.trace.countP (isItemsCall name) = 0) ∧
    (∀ name svc, (name, svc) ∈ active → svc.inst.hasRefreshByItems = false →
      svc.inst.hasRefreshRoot = false →
      Effect.logUnsupported name ∈ r.trace) := by
  have hrun : r = ⟨fs, (dispatchAll active item).1, (dispatchAll active item).2⟩ := by
    subst hit; rw [hr]; simp [refresh, hsv, hp, ConfVal.truthy, dispatchPhase]
  subst hrun
  constructor
  · intro name svc hmem hcap hroot
    exact dispatchAll_countP_of_mem active item name svc hnd hmem hnr hcap hroot
  · intro name svc hmem hcap hroot
    exact dispatchAll_logUnsupported_mem active item name svc hmem hnr hcap hroot

/-- Witness for C9 at a concrete input. -/
theorem claim_C9_witness :
    (∀ name svc,
      (name, svc) ∈ ([("A", ⟨⟨false, true, false, false, false⟩⟩),
        ("B", ⟨⟨false, false, true, false, false⟩⟩),
        ("C", ⟨⟨false, false, false, false, false⟩⟩)] : List (String × ServiceInfo)) →
      svc.inst.hasRefreshByItems = false → svc.inst.hasRefreshRoot = true →
      (refresh ⟨true, ConfVal.num 0, ["A", "B", "C"]⟩
        ⟨"/config", fun _ => "h",
          [("A", ⟨⟨false, true, false, false, false⟩⟩),
           ("B", ⟨⟨false, false, true, false, false⟩⟩),
           ("C", ⟨⟨false, false, false, false, false⟩⟩)],
          100, 100, false, false, false, false⟩
        ⟨[], []⟩ (some ⟨some ⟨some ⟨"/m"⟩⟩, some ⟨"T", "Y", "t", "c"⟩⟩)).trace.countP
          (isRootCall name) = 1 ∧
      (refresh ⟨true, ConfVal.num 0, ["A", "B", "C"]⟩
        ⟨"/config", fun _ => "h",
          [("A", ⟨⟨false, true, false, false, false⟩⟩),
           ("B", ⟨⟨false, false, true, false, false⟩⟩),
           ("C", ⟨⟨false, false, false, false, false⟩⟩)],
          100, 100, false, false, false, false⟩
        ⟨[], []⟩ (some ⟨some ⟨some ⟨"/m"⟩⟩, some ⟨"T", "Y", "t", "c"⟩⟩)).trace.countP
          (isItemsCall name) = 0) ∧
    (∀ name svc,
      (name, svc) ∈ ([("A", ⟨⟨false, true, false, false, false⟩⟩),
        ("B", ⟨⟨false, false, true, false, false⟩⟩),
        ("C", ⟨⟨false, false, false, false, false⟩⟩)] : List (String × ServiceInfo)) →
      svc.inst.hasRefreshByItems = false → svc.inst.hasRefreshRoot = false →
      Effect.logUnsupported name ∈
        (refresh ⟨true, ConfVal.num 0, ["A", "B", "C"]⟩
          ⟨"/config", fun _ => "h",
            [("A", ⟨⟨false, true, false, false, false⟩⟩),
             ("B", ⟨⟨false, false, true, false, false⟩⟩),
             ("C", ⟨⟨false, false, false, false, false⟩⟩)],
            100, 100, false, false, false, false⟩
          ⟨[], []⟩ (some ⟨some ⟨some ⟨"/m"⟩⟩, some ⟨"T", "Y", "t", "c"⟩⟩)).trace) :=
  claim_C9
    ⟨"/config", fun _ => "h",
      [("A", ⟨⟨false, true, false, false, false⟩⟩),
       ("B", ⟨⟨false, false, true, false, false⟩⟩),
       ("C", ⟨⟨false, false, false, false, false⟩⟩)],
      100, 100, false, false, false, false⟩
    ⟨[], []⟩ ["A", "B", "C"]
    [("A", ⟨⟨false, true, false, false, false⟩⟩),
     ("B", ⟨⟨false, false, true, false, false⟩⟩),
     ("C", ⟨⟨false, false, false, false, false⟩⟩)] "/m" ⟨"T", "Y", "t", "c"⟩
    ⟨"T", "Y", "t", "c", pathlibStr "/m"⟩ _ (by decide) (by decide) rfl rfl
    (by decide) (by decide)

/-- C3: with a configured positive delay, when the lock file exists with a
parseable timestamp not in the future (expired), the invocation overwrites
the lock file with `str(now + delay)`, sleeps for the delay, and proceeds to
the dispatch loop. -/
theorem claim_C3 (env : Env) (fs : FS) (q : ℚ) (ms : List String)
    (active : List (String × ServiceInfo)) (p : String) (mi : MediaInfo)
    (item : RefreshMediaItem) (content : String) (t : ℚ)
    (hq : 0 < q) (hp : p ≠ "")
    (hsv : serviceInfos ms env.getServices = some active)
    (hit : item = ⟨mi.title, mi.year, mi.mtype, mi.category, pathlibStr p⟩)
    (hread : env.readRaises = false) (hmk : env.mkdirRaises = false)
    (htc : env.touchRaises = false) (hwr : env.writeRaises = false)
    (hlk : lookupFile fs.files (lockPathFor env p) = some content)
    (hc : content ≠ "") (hpt : parsePyFloat content = some t)
    (hpast : t ≤ env.timeCheck) :
    refresh ⟨true, ConfVal.num q, ms⟩ env fs (some ⟨some ⟨some ⟨p⟩⟩, some mi⟩) =
      ⟨⟨setFile fs.files (lockPathFor env p) (floatToStr (env.timeWrite + q)),
          lockDirFor env :: fs.dirs⟩,
        Effect.sleep q :: (dispatchAll active item).1, (dispatchAll active item).2⟩ := by
  subst hit
  simp [refresh, lockStep, lockWrite, hsv, hp, hread, hmk, htc, hwr, hlk, hc, hpt,
    not_lt.mpr hpast, ConfVal.truthy, ConfVal.toFloat, hq.ne', dispatchPhase]

/-- Witness for C3 at a concrete input. -/
theorem claim_C3_witness :
    refresh ⟨true, ConfVal.num 5, ["emby"]⟩
      ⟨"/config", fun _ => "h", [("emby", ⟨⟨false, true, true, false, false⟩⟩)],
        100, 100, false, false, false, false⟩
      ⟨[("/config/media_refresh_lock/h.lock", "50")], []⟩
      (some ⟨some ⟨some ⟨"/media/movie"⟩⟩, some ⟨"T", "2024", "movie", "cat"⟩⟩) =
      ⟨⟨setFile [("/config/media_refresh_lock/h.lock", "50")]
          (lockPathFor
            ⟨"/config", fun _ => "h", [("emby", ⟨⟨false, true, true, false, false⟩⟩)],
              100, 100, false, false, false, false⟩ "/media/movie")
          (floatToStr ((100 : ℚ) + 5)),
          lockDirFor
            ⟨"/config", fun _ => "h", [("emby", ⟨⟨false, true, true, false, false⟩⟩)],
              100, 100, false, false, false, false⟩ :: []⟩,
        Effect.sleep 5 ::
          (dispatchAll [("emby", ⟨⟨false, true, true, false, false⟩⟩)]
            ⟨"T", "2024", "movie", "cat", pathlibStr "/media/movie"⟩).1,
        (dispatchAll [("emby", ⟨⟨false, true, true, false, false⟩⟩)]
          ⟨"T", "2024", "movie", "cat", pathlibStr "/media/movie"⟩).2⟩ :=
  claim_C3
    ⟨"/config", fun _ => "h", [("emby", ⟨⟨false, true, true, false, false⟩⟩)],
      100, 100, false, false, false, false⟩
    ⟨[("/config/media_refresh_lock/h.lock", "50")], []⟩ 5 ["emby"]
    [("emby", ⟨⟨false, true, true, false, false⟩⟩)] "/media/movie"
    ⟨"T", "2024", "movie", "cat"⟩
    ⟨"T", "2024", "movie", "cat", pathlibStr "/media/movie"⟩ "50" 50
    (by decide) (by decide) (by decide) rfl (by decide) (by decide) (by decide)
    (by decide) (by decide) (by decide) (by decide) (by decide)

/-- C5 as stated is false: a payload carrying a valid transfer target but no
`mediainfo` makes `mediainfo.title` (line 229) raise `AttributeError`, which
propagates to the caller. -/
theorem claim_C5_counterexample :
    refresh ⟨true, ConfVal.num 0, ["emby"]⟩
      ⟨"/config", fun _ => "h", [("emby", ⟨⟨false, true, true, false, false⟩⟩)],
        100, 100, false, false, false, false⟩
      ⟨[], []⟩ (some ⟨some ⟨some ⟨"/m"⟩⟩, none⟩) =
      ⟨⟨[], []⟩, [], Outcome.raise PyExn.attributeError⟩ := by decide

/-- C5 (amended): every failure of the lock sequence is caught and swallowed
(the `try`/`except` at lines 201-221): for every lock-file state and every
combination of injected lock I/O faults, when the payload carries mediainfo
and no dispatch call raises, the handler returns normally.  However a missing
`mediainfo` key, an unparseable truthy delay string, and a raising dispatch
call all propagate to the caller. -/
theorem claim_C5 (env : Env) (fs : FS) (q : ℚ) (ms : List String)
    (active : List (String × ServiceInfo)) (p : String) (mi : MediaInfo)
    (hq : 0 < q) (hp : p ≠ "")
    (hsv : serviceInfos ms env.getServices = some active)
    (hnr : ∀ x ∈ active, x.2.inst.refreshByItemsRaises = false ∧
      x.2.inst.refreshRootRaises = false) :
    (refresh ⟨true, ConfVal.num q, ms⟩ env fs
      (some ⟨some ⟨some ⟨p⟩⟩, some mi⟩)).outcome = Outcome.ok := by
  have hok := dispatchAll_ok active
    ⟨mi.title, mi.year, mi.mtype, mi.category, pathlibStr p⟩ hnr
  rcases hls : lockStep env fs (lockDirFor env) (lockPathFor env p) q with ⟨fs1, ab, tr1⟩
  cases ab <;>
    simp [refresh, hsv, hp, ConfVal.truthy, ConfVal.toFloat, hq.ne', hls,
      dispatchPhase, hok]

/-- Witness for the amended C5 at a concrete input (every fault flag set and
a stale unreadable lock present: the run still returns normally). -/
theorem claim_C5_witness :
    (refresh ⟨true, ConfVal.num 5, ["emby"]⟩
      ⟨"/config", fun _ => "h", [("emby", ⟨⟨false, true, true, false, false⟩⟩)],
        100, 100, true, true, true, true⟩
      ⟨[("/config/media_refresh_lock/h.lock", "garbage")], []⟩
      (some ⟨some ⟨some ⟨"/media/movie"⟩⟩, some ⟨"T", "2024", "movie", "cat"⟩⟩)).outcome =
      Outcome.ok :=
  claim_C5
    ⟨"/config", fun _ => "h", [("emby", ⟨⟨false, true, true, false, false⟩⟩)],
      100, 100, true, true, true, true⟩
    ⟨[("/config/media_refresh_lock/h.lock", "garbage")], []⟩ 5 ["emby"]
    [("emby", ⟨⟨false, true, true, false, false⟩⟩)] "/media/movie"
    ⟨"T", "2024", "movie", "cat"⟩ (by decide) (by decide) (by decide) (by decide)

/-- C10: the delay branch is chosen by Python truthiness of the raw
configured delay value, not by its numeric value: after `init_plugin` stores
a non-empty delay string `s` parsing to the float `v` (possibly `0`), the
handler enters the lock-and-sleep branch, writes the lock file with
`str(now + float(s))`, and sleeps `float(s)` seconds — even when `v = 0`. -/
theorem claim_C10 (env : Env) (fs : FS) (st0 : PluginState) (ms : List String)
    (active : List (String × ServiceInfo)) (p : String) (mi : MediaInfo)
    (item : RefreshMediaItem) (s : String) (v : ℚ)
    (hs : s ≠ "") (hps : parsePyFloat s = some v) (hp : p ≠ "")
    (hsv : serviceInfos ms env.getServices = some active)
    (hit : item = ⟨mi.title, mi.year, mi.mtype, mi.category, pathlibStr p⟩)
    (hmk : env.mkdirRaises = false) (htc : env.touchRaises = false)
    (hwr : env.writeRaises = false)
    (hlk : lookupFile fs.files (lockPathFor env p) = none) :
    refresh (init_plugin st0 (some ⟨true, some (ConfVal.str s), some ms⟩)) env fs
      (some ⟨some ⟨some ⟨p⟩⟩, some mi⟩) =
      ⟨⟨setFile ((lockPathFor env p, "") :: fs.files) (lockPathFor env p)
          (floatToStr (env.timeWrite + v)), lockDirFor env :: fs.dirs⟩,
        Effect.sleep v :: (dispatchAll active item).1, (dispatchAll active item).2⟩ := by
  have hms : ms.isEmpty = false := by
    cases hmse : ms.isEmpty
    · rfl
    · exfalso
      simp [serviceInfos, hmse] at hsv
  have hinit : init_plugin st0 (some ⟨true, some (ConfVal.str s), some ms⟩) =
      ⟨true, ConfVal.str s, ms⟩ := by
    simp [init_plugin, ConfVal.truthy, hs, hms]
  rw [hinit]
  subst hit
  simp [refresh, hsv, hp, ConfVal.truthy, ConfVal.toFloat, hs, hps, lockStep,
    lockWrite, hmk, htc, hwr, hlk, dispatchPhase]

/-- Witness for C10 at the delay string `"0"`: the lock is written and a
zero-second sleep is performed. -/
theorem claim_C10_witness :
    refresh
      (init_plugin ⟨false, ConfVal.num 0, []⟩
        (some ⟨true, some (ConfVal.str "0"), some ["emby"]⟩))
      ⟨"/config", fun _ => "h", [("emby", ⟨⟨false, true, true, false, false⟩⟩)],
        100, 100, false, false, false, false⟩
      ⟨[], []⟩
      (some ⟨some ⟨some ⟨"/media/movie"⟩⟩, some ⟨"T", "2024", "movie", "cat"⟩⟩) =
      ⟨⟨setFile
          ((lockPathFor
            ⟨"/config", fun _ => "h", [("emby", ⟨⟨false, true, true, false, false⟩⟩)],
              100, 100, false, false, false, false⟩ "/media/movie", "") :: [])
          (lockPathFor
            ⟨"/config", fun _ => "h", [("emby", ⟨⟨false, true, true, false, false⟩⟩)],
              100, 100, false, false, false, false⟩ "/media/movie")
          (floatToStr ((100 : ℚ) + 0)),
          lockDirFor
            ⟨"/config", fun _ => "h", [("emby", ⟨⟨false, true, true, false, false⟩⟩)],
              100, 100, false, false, false, false⟩ :: []⟩,
        Effect.sleep 0 ::
          (dispatchAll [("emby", ⟨⟨false, true, true, false, false⟩⟩)]
            ⟨"T", "2024", "movie", "cat", pathlibStr "/media/movie"⟩).1,
        (dispatchAll [("emby", ⟨⟨false, true, true, false, false⟩⟩)]
          ⟨"T", "2024", "movie", "cat", pathlibStr "/media/movie"⟩).2⟩ :=
  claim_C10
    ⟨"/config", fun _ => "h", [("emby", ⟨⟨false, true, true, false, false⟩⟩)],
      100, 100, false, false, false, false⟩
    ⟨[], []⟩ ⟨false, ConfVal.num 0, []⟩ ["emby"]
    [("emby", ⟨⟨false, true, true, false, false⟩⟩)] "/media/movie"
    ⟨"T", "2024", "movie", "cat"⟩
    ⟨"T", "2024", "movie", "cat", pathlibStr "/media/movie"⟩ "0" 0
    (by decide) (by decide) (by decide) (by decide) rfl (by decide) (by decide)
    (by decide) (by decide)

theorem lockWrite_frame (env : Env) (fs : FS) (ld lp : String) (delay : ℚ)
    (p' : String) (h : p' ≠ lp) :
    lookupFile (lockWrite env fs ld lp delay).1.files p' = lookupFile fs.files p' := by
  unfold lockWrite
  by_cases h1 : env.mkdirRaises = true
  · simp [h1]
  · by_cases h2 : env.touchRaises = true
    · simp [h1, h2]
    · by_cases h4 : (lookupFile fs.files lp).isSome = true <;>
        by_cases h3 : env.writeRaises = true <;>
          simp [h1, h2, h3, h4, lookupFile, Ne.symm h,
            lookupFile_setFile_ne _ lp _ p' h]

theorem lockStep_frame (env : Env) (fs : FS) (ld lp : String) (delay : ℚ)
    (p' : String) (h : p' ≠ lp) :
    lookupFile (lockStep env fs ld lp delay).1.files p' = lookupFile fs.files p' := by
  unfold lockStep
  cases hl : lookupFile fs.files lp with
  | none => simp [lockWrite_frame env fs ld lp delay p' h]
  | some content =>
    by_cases hr : env.readRaises = true
    · simp [hr]
    · by_cases hc : content = ""
      · simp [hr, hc, lockWrite_frame env fs ld lp delay p' h]
      · cases hp2 : parsePyFloat content with
        | none => simp [hr, hc, hp2]
        | some t =>
          by_cases hlt : env.timeCheck < t <;>
            simp [hr, hc, hp2, hlt, lockWrite_frame env fs ld lp delay p' h]

/-- C7: (frame) an invocation of the handler never writes any file other
than the lock file of the event's target path — for every state, filesystem
and event, every other path's contents are unchanged; and (content) in the
canonical write (positive numeric delay, no lock present, no faults) the
lock file afterwards holds exactly `str(now + delay)`, the decimal rendering
produced by `floatToStr`. -/
theorem claim_C7 (env : Env) :
    (∀ st fs ev p', p' ≠ lockPathFor env (targetPathOf ev) →
      lookupFile (refresh st env fs ev).fs.files p' = lookupFile fs.files p') ∧
    (∀ (q : ℚ) (ms : List String) (active : List (String × ServiceInfo)) (fs : FS)
      (p : String) (mi : MediaInfo), 0 < q → p ≠ "" →
      serviceInfos ms env.getServices = some active →
      env.mkdirRaises = false → env.touchRaises = false → env.writeRaises = false →
      lookupFile fs.files (lockPathFor env p) = none →
      lookupFile (refresh ⟨true, ConfVal.num q, ms⟩ env fs
        (some ⟨some ⟨some ⟨p⟩⟩, some mi⟩)).fs.files (lockPathFor env p) =
        some (floatToStr (env.timeWrite + q))) := by
  constructor
  · intro st fs ev p' hne
    rcases st with ⟨en, dl, ms⟩
    cases en
    · simp [refresh]
    · cases ev with
      | none => simp [refresh]
      | some pl =>
        rcases pl with ⟨ti, mi⟩
        cases hsv : serviceInfos ms env.getServices with
        | none => simp [refresh, hsv]
        | some active =>
          cases ti with
          | none => simp [refresh, hsv]
          | some tii =>
            cases htd : tii.target_diritem with
            | none => simp [refresh, hsv, htd]
            | some dii =>
              by_cases hp : dii.path = ""
              · simp [refresh, hsv, htd, hp]
              · have htp : targetPathOf (some ⟨some tii, mi⟩) = dii.path := by
                  simp [targetPathOf, htd]
                rw [htp] at hne
                by_cases ht : dl.truthy = true
                · cases hf : dl.toFloat with
                  | none => simp [refresh, hsv, htd, hp, ht, hf]
                  | some q =>
                    rcases hls : lockStep env fs (lockDirFor env)
                        (lockPathFor env dii.path) q with ⟨fs1, ab, tr1⟩
                    have hfr : lookupFile fs1.files p' = lookupFile fs.files p' := by
                      have hfr0 := lockStep_frame env fs (lockDirFor env)
                        (lockPathFor env dii.path) q p' hne
                      rw [hls] at hfr0
                      exact hfr0
                    have hdp := dispatchPhase_fs ⟨some tii, mi⟩ dii active fs1
                      (tr1 ++ [Effect.sleep q])
                    cases ab
                    · simp [refresh, hsv, htd, hp, ht, hf, hls, hdp, hfr]
                    · simp [refresh, hsv, htd, hp, ht, hf, hls, hfr]
                · have hdp := dispatchPhase_fs ⟨some tii, mi⟩ dii active fs []
                  simp [refresh, hsv, htd, hp, ht, hdp]
  · intro q ms active fs p mi hq hp hsv hmk htc hwr hlk
    simp [refresh, hsv, hp, ConfVal.truthy, ConfVal.toFloat, hq.ne', lockStep,
      lockWrite, hmk, htc, hwr, hlk, dispatchPhase, lookupFile_setFile_self]

/-- Witness for C7 at concrete inputs: an unrelated file is untouched, and
the written lock file holds the rendered run time. -/
theorem claim_C7_witness :
    lookupFile
      (refresh ⟨true, ConfVal.num 0, ["emby"]⟩
        ⟨"/config", fun _ => "h", [("emby", ⟨⟨false, true, true, false, false⟩⟩)],
          100, 100, false, false, false, false⟩
        ⟨[("/other", "keep")], []⟩
        (some ⟨some ⟨some ⟨"/media/movie"⟩⟩, some ⟨"T", "2024", "movie", "cat"⟩⟩)).fs.files
      "/other" = lookupFile [("/other", "keep")] "/other" ∧
    lookupFile
      (refresh ⟨true, ConfVal.num 5, ["emby"]⟩
        ⟨"/config", fun _ => "h", [("emby", ⟨⟨false, true, true, false, false⟩⟩)],
          100, 100, false, false, false, false⟩
        ⟨[], []⟩
        (some ⟨some ⟨some ⟨"/media/movie"⟩⟩, some ⟨"T", "2024", "movie", "cat"⟩⟩)).fs.files
      (lockPathFor
        ⟨"/config", fun _ => "h", [("emby", ⟨⟨false, true, true, false, false⟩⟩)],
          100, 100, false, false, false, false⟩ "/media/movie") =
      some (floatToStr ((100 : ℚ) + 5)) :=
  ⟨(claim_C7
      ⟨"/config", fun _ => "h", [("emby", ⟨⟨false, true, true, false, false⟩⟩)],
        100, 100, false, false, false, false⟩).1
      ⟨true, ConfVal.num 0, ["emby"]⟩ ⟨[("/other", "keep")], []⟩
      (some ⟨some ⟨some ⟨"/media/movie"⟩⟩, some ⟨"T", "2024", "movie", "cat"⟩⟩)
      "/other" (by decide),
    (claim_C7
      ⟨"/config", fun _ => "h", [("emby", ⟨⟨false, true, true, false, false⟩⟩)],
        100, 100, false, false, false, false⟩).2
      5 ["emby"] [("emby", ⟨⟨false, true, true, false, false⟩⟩)] ⟨[], []⟩
      "/media/movie" ⟨"T", "2024", "movie", "cat"⟩ (by decide) (by decide)
      (by decide) (by decide) (by decide) (by decide) (by decide)⟩

theorem digitChar_spec (d : Nat) (h : d < 10) :
    digitVal (digitChar d) = some d ∧ digitChar d ≠ '.' ∧ digitChar d ≠ '-' ∧
      digitChar d ≠ '+' ∧ digitChar d ≠ 'g' := by
  interval_cases d <;> exact (by decide)

theorem parseDigitsAux_append (xs ys : List Char) :
    ∀ acc, parseDigitsAux acc (xs ++ ys) =
      (parseDigitsAux acc xs).bind fun v => parseDigitsAux v ys := by
  induction xs with
  | nil => intro acc; rfl
  | cons c cs ih =>
    intro acc
    cases hd : digitVal c with
    | none => simp [parseDigitsAux, hd]
    | some d => simp [parseDigitsAux, hd, ih]

theorem natToStrAux_parse :
    ∀ (fuel n acc : Nat), n ≤ fuel →
      parseDigitsAux acc (natToStrAux fuel n) =
        some (acc * 10 ^ (natToStrAux fuel n).length + n) := by
  intro fuel
  induction fuel with
  | zero =>
    intro n acc h
    interval_cases n
    simp [natToStrAux, parseDigitsAux]
  | succ fuel ih =>
    intro n acc h
    by_cases hn : n = 0
    · subst hn; simp [natToStrAux, parseDigitsAux]
    · have hrw : natToStrAux (fuel + 1) n =
          natToStrAux fuel (n / 10) ++ [digitChar (n % 10)] := by
        rw [natToStrAux]
        simp [hn]
      have hle : n / 10 ≤ fuel := by omega
      have hmod : n % 10 < 10 := Nat.mod_lt _ (by norm_num)
      have hdv : digitVal (digitChar (n % 10)) = some (n % 10) := (digitChar_spec _ hmod).1
      have hone : ∀ a : Nat, parseDigitsAux a [digitChar (n % 10)] =
          some (a * 10 + n % 10) := by
        intro a
        simp [parseDigitsAux, hdv]
      rw [hrw, parseDigitsAux_append, ih (n / 10) acc hle, Option.some_bind, hone]
      simp only [List.length_append, List.length_cons, List.length_nil, Nat.zero_add]
      congr 1
      have hdm : n / 10 * 10 + n % 10 = n := by omega
      rw [Nat.add_mul, Nat.add_assoc, hdm, pow_succ, ← Nat.mul_assoc]

theorem parse_natToChars (n : Nat) : parseDigitsAux 0 (natToChars n) = some n := by
  by_cases hn : n = 0
  · subst hn; rfl
  · rw [natToChars]
    simp only [hn, if_false]
    rw [natToStrAux_parse n n 0 (Nat.le_refl n)]
    simp

theorem mem_natToStrAux :
    ∀ (fuel n : Nat) (c : Char), c ∈ natToStrAux fuel n →
      ∃ d, d < 10 ∧ c = digitChar d := by
  intro fuel
  induction fuel with
  | zero => intro n c hc; simp [natToStrAux] at hc
  | succ fuel ih =>
    intro n c hc
    by_cases hn : n = 0
    · rw [natToStrAux] at hc
      simp [hn] at hc
    · rw [natToStrAux] at hc
      simp only [hn, if_false, List.mem_append, List.mem_singleton] at hc
      rcases hc with hc | hc
      · exact ih (n / 10) c hc
      · exact ⟨n % 10, Nat.mod_lt _ (by norm_num), hc⟩

theorem natToChars_ne_nil (n : Nat) : natToChars n ≠ [] := by
  by_cases hn : n = 0
  · subst hn; simp [natToChars]
  · rw [natToChars]
    simp only [hn, if_false]
    cases n with
    | zero => exact absurd rfl hn
    | succ m =>
      rw [natToStrAux]
      simp

theorem mem_natToChars (n : Nat) (c : Char) (h : c ∈ natToChars n) :
    ∃ d, d < 10 ∧ c = digitChar d := by
  by_cases hn : n = 0
  · subst hn
    simp [natToChars] at h
    exact ⟨0, by norm_num, by rw [h]; rfl⟩
  · rw [natToChars] at h
    simp only [hn, if_false] at h
    exact mem_natToStrAux n n c h

theorem dot_not_mem_natToChars (n : Nat) : '.' ∉ natToChars n := by
  intro h
  obtain ⟨d, hd, heq⟩ := mem_natToChars n _ h
  exact (digitChar_spec d hd).2.1 heq.symm

theorem natToChars_head (n : Nat) :
    ∃ d cs, d < 10 ∧ natToChars n = digitChar d :: cs := by
  obtain ⟨c, cs, hc⟩ := List.exists_cons_of_ne_nil (natToChars_ne_nil n)
  have hmem : c ∈ natToChars n := by rw [hc]; exact List.mem_cons_self _ _
  obtain ⟨d, hd, hcd⟩ := mem_natToChars n c hmem
  exact ⟨d, cs, hd, by rw [hc, hcd]⟩

theorem splitDot_append (xs ys : List Char) (h : '.' ∉ xs) :
    splitDot (xs ++ '.' :: ys) = some (xs, ys) := by
  induction xs with
  | nil => simp [splitDot]
  | cons c cs ih =>
    simp only [List.mem_cons, not_or] at h
    have hc : ¬(c = '.') := fun hcc => h.1 hcc.symm
    simp [splitDot, hc, ih h.2]

theorem parse_replicate_zero (k : Nat) (l : List Char) :
    parseDigitsAux 0 (List.replicate k '0' ++ l) = parseDigitsAux 0 l := by
  induction k with
  | zero => simp
  | succ k ih =>
    have h0 : digitVal '0' = some 0 := rfl
    simpa [List.replicate_succ, parseDigitsAux, h0] using ih

theorem natToStrAux_length :
    ∀ (fuel n k : Nat), n ≤ fuel → n < 10 ^ k → (natToStrAux fuel n).length ≤ k := by
  intro fuel
  induction fuel with
  | zero => intro n k h hk; simp [natToStrAux]
  | succ fuel ih =>
    intro n k h hk
    by_cases hn : n = 0
    · subst hn; simp [natToStrAux]
    · cases k with
      | zero =>
        exfalso
        simp only [pow_zero] at hk
        omega
      | succ k' =>
        have hdiv : n / 10 < 10 ^ k' := by
          rw [pow_succ] at hk
          exact (Nat.div_lt_iff_lt_mul (by norm_num)).mpr hk
        have hle : n / 10 ≤ fuel := by omega
        have hrec := ih (n / 10) k' hle hdiv
        rw [natToStrAux]
        simp only [hn, if_false, List.length_append, List.length_cons, List.length_nil]
        omega

theorem natToChars_length_le (n k : Nat) (hk : k ≠ 0) (h : n < 10 ^ k) :
    (natToChars n).length ≤ k := by
  by_cases hn : n = 0
  · subst hn
    have h1 : (natToChars 0).length = 1 := rfl
    omega
  · rw [natToChars]
    simp only [hn, if_false]
    exact natToStrAux_length n n k (Nat.le_refl n) h

theorem padZeros_length (e : Nat) (cs : List Char) (h : cs.length ≤ e) :
    (padZeros e cs).length = e := by
  simp [padZeros]
  omega

theorem parseUnsigned_decimal (v e : Nat) :
    parseUnsignedChars (
      if e = 0 then natToChars v ++ ['.', '0']
      else natToChars (v / 10 ^ e) ++ '.' :: padZeros e (natToChars (v % 10 ^ e))) =
      some ((v : ℚ) / (10 : ℚ) ^ e) := by
  by_cases he : e = 0
  · subst he
    rw [if_pos rfl]
    have hdot : '.' ∉ natToChars v := dot_not_mem_natToChars v
    have hsplit : splitDot (natToChars v ++ ['.', '0']) = some (natToChars v, ['0']) :=
      splitDot_append _ _ hdot
    have hane : (natToChars v).isEmpty = false := by
      cases hnc : natToChars v with
      | nil => exact absurd hnc (natToChars_ne_nil v)
      | cons a l => rfl
    have h0 : parseDigitsAux 0 ['0'] = some 0 := rfl
    simp [parseUnsignedChars, hsplit, hane, parse_natToChars, h0]
  · rw [if_neg he]
    have hdot : '.' ∉ natToChars (v / 10 ^ e) := dot_not_mem_natToChars _
    have hsplit := splitDot_append (natToChars (v / 10 ^ e))
      (padZeros e (natToChars (v % 10 ^ e))) hdot
    have hane : (natToChars (v / 10 ^ e)).isEmpty = false := by
      cases hnc : natToChars (v / 10 ^ e) with
      | nil => exact absurd hnc (natToChars_ne_nil _)
      | cons a l => rfl
    have hmodlt : v % 10 ^ e < 10 ^ e := Nat.mod_lt _ (pow_pos (by norm_num) e)
    have hblen : (padZeros e (natToChars (v % 10 ^ e))).length = e :=
      padZeros_length e _ (natToChars_length_le _ e he hmodlt)
    have hbparse : parseDigitsAux 0 (padZeros e (natToChars (v % 10 ^ e))) =
        some (v % 10 ^ e) := by
      rw [padZeros, parse_replicate_zero, parse_natToChars]
    simp [parseUnsignedChars, hsplit, hane, parse_natToChars, hbparse, hblen]
    have hsum : v / 10 ^ e * 10 ^ e + v % 10 ^ e = v := Nat.div_add_mod' v (10 ^ e)
    have hcast : ((v / 10 ^ e : Nat) : ℚ) * (10 : ℚ) ^ e + ((v % 10 ^ e : Nat) : ℚ) =
        (v : ℚ) := by
      calc ((v / 10 ^ e : Nat) : ℚ) * (10 : ℚ) ^ e + ((v % 10 ^ e : Nat) : ℚ) =
          ((v / 10 ^ e * 10 ^ e + v % 10 ^ e : Nat) : ℚ) := by push_cast; ring
        _ = (v : ℚ) := by rw [hsum]
    rw [hcast]

theorem parseUnsigned_floatCharsNN (q : ℚ) (hq : 0 ≤ q)
    (hden : q.den ∣ 10 ^ max (factorMult 2 q.den) (factorMult 5 q.den)) :
    parseUnsignedChars (floatCharsNN q) = some q := by
  have h2 : floatCharsNN q =
      (if max (factorMult 2 q.den) (factorMult 5 q.den) = 0
       then natToChars (q.num.toNat *
          10 ^ max (factorMult 2 q.den) (factorMult 5 q.den) / q.den) ++ ['.', '0']
       else natToChars (q.num.toNat *
          10 ^ max (factorMult 2 q.den) (factorMult 5 q.den) / q.den /
          10 ^ max (factorMult 2 q.den) (factorMult 5 q.den)) ++ '.' ::
         padZeros (max (factorMult 2 q.den) (factorMult 5 q.den))
           (natToChars (q.num.toNat *
             10 ^ max (factorMult 2 q.den) (factorMult 5 q.den) / q.den %
             10 ^ max (factorMult 2 q.den) (factorMult 5 q.den)))) := by
    simp only [floatCharsNN]
    rw [if_pos hden]
  rw [h2, parseUnsigned_decimal]
  congr 1
  have hd0 : q.den ≠ 0 := q.den_nz
  have hdQ : ((q.den : Nat) : ℚ) ≠ 0 := Nat.cast_ne_zero.mpr hd0
  have hdvd' : q.den ∣ q.num.toNat *
      10 ^ max (factorMult 2 q.den) (factorMult 5 q.den) := Dvd.dvd.mul_left hden _
  have hscaled : (q.num.toNat * 10 ^ max (factorMult 2 q.den) (factorMult 5 q.den) /
      q.den) * q.den =
      q.num.toNat * 10 ^ max (factorMult 2 q.den) (factorMult 5 q.den) :=
    Nat.div_mul_cancel hdvd'
  have hscaledQ : ((q.num.toNat * 10 ^ max (factorMult 2 q.den) (factorMult 5 q.den) /
      q.den : Nat) : ℚ) * ((q.den : Nat) : ℚ) =
      ((q.num.toNat : Nat) : ℚ) *
        (10 : ℚ) ^ max (factorMult 2 q.den) (factorMult 5 q.den) := by
    exact_mod_cast hscaled
  have hnum : ((q.num.toNat : Nat) : ℚ) = (q.num : ℚ) := by
    exact_mod_cast Int.toNat_of_nonneg (Rat.num_nonneg.mpr hq)
  rw [div_eq_iff (pow_ne_zero _ (by norm_num : (10 : ℚ) ≠ 0))]
  apply mul_right_cancel₀ hdQ
  rw [hscaledQ, hnum]
  have h3 : q * ((q.den : Nat) : ℚ) = (q.num : ℚ) := Rat.mul_den_eq_num q
  linear_combination (-((10 : ℚ) ^ max (factorMult 2 q.den) (factorMult 5 q.den))) * h3

theorem floatCharsNN_head (q : ℚ) :
    ∃ d cs, d < 10 ∧ floatCharsNN q = digitChar d :: cs := by
  by_cases h1 : q.den ∣ 10 ^ max (factorMult 2 q.den) (factorMult 5 q.den)
  · by_cases h2 : max (factorMult 2 q.den) (factorMult 5 q.den) = 0
    · obtain ⟨d0, cs0, hd0, hc0⟩ := natToChars_head
        (q.num.toNat * 10 ^ max (factorMult 2 q.den) (factorMult 5 q.den) / q.den)
      refine ⟨d0, cs0 ++ ['.', '0'], hd0, ?_⟩
      simp only [floatCharsNN]
      rw [if_pos h1, if_pos h2, hc0]
      simp
    · obtain ⟨d0, cs0, hd0, hc0⟩ := natToChars_head
        (q.num.toNat * 10 ^ max (factorMult 2 q.den) (factorMult 5 q.den) / q.den /
          10 ^ max (factorMult 2 q.den) (factorMult 5 q.den))
      refine ⟨d0, cs0 ++ '.' :: padZeros (max (factorMult 2 q.den) (factorMult 5 q.den))
        (natToChars (q.num.toNat *
          10 ^ max (factorMult 2 q.den) (factorMult 5 q.den) / q.den %
          10 ^ max (factorMult 2 q.den) (factorMult 5 q.den))), hd0, ?_⟩
      simp only [floatCharsNN]
      rw [if_pos h1, if_neg h2, hc0]
      simp
  · obtain ⟨d0, cs0, hd0, hc0⟩ := natToChars_head q.num.toNat
    refine ⟨d0, cs0 ++ '/' :: natToChars q.den, hd0, ?_⟩
    simp only [floatCharsNN]
    rw [if_neg h1, hc0]
    simp

theorem parsePyFloat_floatToStr (q : ℚ)
    (hden : q.den ∣ 10 ^ max (factorMult 2 q.den) (factorMult 5 q.den)) :
    parsePyFloat (floatToStr q) = some q := by
  by_cases hneg : q < 0
  · have hq' : (0 : ℚ) ≤ -q := le_of_lt (neg_pos.mpr hneg)
    have hdn : (-q).den = q.den := Rat.neg_den q
    have hden' : (-q).den ∣
        10 ^ max (factorMult 2 (-q).den) (factorMult 5 (-q).den) := by
      rw [hdn]; exact hden
    have hun := parseUnsigned_floatCharsNN (-q) hq' hden'
    rw [floatToStr, if_pos hneg]
    show parseFloatChars ('-' :: floatCharsNN (-q)) = some q
    simp [parseFloatChars, hun]
  · have hq' : (0 : ℚ) ≤ q := le_of_not_lt hneg
    have hun := parseUnsigned_floatCharsNN q hq' hden
    obtain ⟨d, cs, hd, hc⟩ := floatCharsNN_head q
    rw [floatToStr, if_neg hneg]
    show parseFloatChars (floatCharsNN q) = some q
    rw [hc]
    have hnd : ¬(digitChar d = '-') := (digitChar_spec d hd).2.2.1
    have hnp : ¬(digitChar d = '+') := (digitChar_spec d hd).2.2.2.1
    simp only [parseFloatChars, hnd, hnp, if_false]
    rw [← hc]
    exact hun

/-- C8: the run time the handler writes to the lock file round-trips: after
the canonical write (no lock present, no faults), the lock file holds exactly
`str(run_time)` as rendered by `floatToStr`, and parsing that text back with
Python `float` (`parsePyFloat`) returns exactly the written value.  The
hypothesis `hden` says the run time has a terminating decimal expansion,
which holds of every IEEE float (binary floats are dyadic rationals). -/
theorem claim_C8 (env : Env) (fs : FS) (q r : ℚ) (ms : List String)
    (active : List (String × ServiceInfo)) (p : String) (mi : MediaInfo)
    (hq : 0 < q) (hp : p ≠ "")
    (hsv : serviceInfos ms env.getServices = some active)
    (hmk : env.mkdirRaises = false) (htc : env.touchRaises = false)
    (hwr : env.writeRaises = false)
    (hlk : lookupFile fs.files (lockPathFor env p) = none)
    (hr : env.timeWrite + q = r)
    (hden : r.den ∣ 10 ^ max (factorMult 2 r.den) (factorMult 5 r.den)) :
    lookupFile (refresh ⟨true, ConfVal.num q, ms⟩ env fs
      (some ⟨some ⟨some ⟨p⟩⟩, some mi⟩)).fs.files (lockPathFor env p) =
      some (floatToStr r) ∧
    parsePyFloat (floatToStr r) = some r := by
  constructor
  · rw [← hr]
    simp [refresh, hsv, hp, ConfVal.truthy, ConfVal.toFloat, hq.ne', lockStep,
      lockWrite, hmk, htc, hwr, hlk, dispatchPhase, lookupFile_setFile_self]
  · exact parsePyFloat_floatToStr r hden

/-- Witness for C8 at a concrete input. -/
theorem claim_C8_witness :
    lookupFile
      (refresh ⟨true, ConfVal.num 5, ["emby"]⟩
        ⟨"/config", fun _ => "h", [("emby", ⟨⟨false, true, true, false, false⟩⟩)],
          100, 100, false, false, false, false⟩
        ⟨[], []⟩
        (some ⟨some ⟨some ⟨"/media/movie"⟩⟩, some ⟨"T", "2024", "movie", "cat"⟩⟩)).fs.files
      (lockPathFor
        ⟨"/config", fun _ => "h", [("emby", ⟨⟨false, true, true, false, false⟩⟩)],
          100, 100, false, false, false, false⟩ "/media/movie") =
      some (floatToStr 105) ∧
    parsePyFloat (floatToStr 105) = some 105 :=
  claim_C8
    ⟨"/config", fun _ => "h", [("emby", ⟨⟨false, true, true, false, false⟩⟩)],
      100, 100, false, false, false, false⟩
    ⟨[], []⟩ 5 105 ["emby"] [("emby", ⟨⟨false, true, true, false, false⟩⟩)]
    "/media/movie" ⟨"T", "2024", "movie", "cat"⟩ (by decide) (by decide) (by decide)
    (by decide) (by decide) (by decide) (by decide) (by norm_num) (by decide)

/-- C4 as stated is false on the corrupt-content case: with a lock file
holding the unparseable text `"garbage"`, the `float(content)` error jumps to
the `except` branch before the mkdir/touch/write statements, so the
invocation does not overwrite the lock file with the new run time — the file
still holds `"garbage"` afterwards, which no `str(run_time)` output equals —
although the refresh does still proceed. -/
theorem claim_C4_counterexample :
    refresh ⟨true, ConfVal.num 5, ["emby"]⟩
      ⟨"/config", fun _ => "h", [("emby", ⟨⟨false, true, true, false, false⟩⟩)],
        100, 100, false, false, false, false⟩
      ⟨[("/config/media_refresh_lock/h.lock", "garbage")], []⟩
      (some ⟨some ⟨some ⟨"/m"⟩⟩, some ⟨"T", "Y", "t", "c"⟩⟩) =
      ⟨⟨[("/config/media_refresh_lock/h.lock", "garbage")], []⟩,
        [Effect.logLockFail, Effect.sleep 5,
          Effect.refreshByItems "emby" ⟨"T", "Y", "t", "c", "/m"⟩],
        Outcome.ok⟩ ∧
    (∀ t : ℚ, floatToStr t ≠ "garbage") := by
  constructor
  · decide
  · intro t h
    by_cases hneg : t < 0
    · rw [floatToStr, if_pos hneg] at h
      have hdata : '-' :: floatCharsNN (-t) = "garbage".data := congrArg String.data h
      injection hdata with h1 h2
      exact absurd h1 (by decide)
    · rw [floatToStr, if_neg hneg] at h
      obtain ⟨d, cs, hd, hc⟩ := floatCharsNN_head t
      rw [hc] at h
      have hdata : digitChar d :: cs = "garbage".data := congrArg String.data h
      injection hdata with h1 h2
      exact (digitChar_spec d hd).2.2.2.2 h1

/-- C4 (amended): with a configured positive delay and no mkdir/touch/write
fault, (a) a missing lock file and (b) an existing empty lock file lead to
the directory being ensured, the file being created/kept, and its contents
overwritten with `str(now + delay)`, after which the refresh proceeds
(sleep, then dispatch); whereas (c) corrupt (unparseable) content and (d) an
unreadable lock file make the raised error jump to the `except` branch:
it is logged and swallowed, the write steps are skipped (the lock file is
left unchanged), and the refresh still proceeds (fail-open). -/
theorem claim_C4 (env : Env) (fs : FS) (q : ℚ) (ms : List String)
    (active : List (String × ServiceInfo)) (p : String) (mi : MediaInfo)
    (item : RefreshMediaItem)
    (hq : 0 < q) (hp : p ≠ "")
    (hsv : serviceInfos ms env.getServices = some active)
    (hit : item = ⟨mi.title, mi.year, mi.mtype, mi.category, pathlibStr p⟩)
    (hmk : env.mkdirRaises = false) (htc : env.touchRaises = false)
    (hwr : env.writeRaises = false) :
    (lookupFile fs.files (lockPathFor env p) = none →
      refresh ⟨true, ConfVal.num q, ms⟩ env fs (some ⟨some ⟨some ⟨p⟩⟩, some mi⟩) =
        ⟨⟨setFile ((lockPathFor env p, "") :: fs.files) (lockPathFor env p)
            (floatToStr (env.timeWrite + q)), lockDirFor env :: fs.dirs⟩,
          Effect.sleep q :: (dispatchAll active item).1,
          (dispatchAll active item).2⟩) ∧
    (env.readRaises = false → lookupFile fs.files (lockPathFor env p) = some "" →
      refresh ⟨true, ConfVal.num q, ms⟩ env fs (some ⟨some ⟨some ⟨p⟩⟩, some mi⟩) =
        ⟨⟨setFile fs.files (lockPathFor env p) (floatToStr (env.timeWrite + q)),
            lockDirFor env :: fs.dirs⟩,
          Effect.sleep q :: (dispatchAll active item).1,
          (dispatchAll active item).2⟩) ∧
    (∀ content, env.readRaises = false →
      lookupFile fs.files (lockPathFor env p) = some content → content ≠ "" →
      parsePyFloat content = none →
      refresh ⟨true, ConfVal.num q, ms⟩ env fs (some ⟨some ⟨some ⟨p⟩⟩, some mi⟩) =
        ⟨fs, Effect.logLockFail :: Effect.sleep q :: (dispatchAll active item).1,
          (dispatchAll active item).2⟩) ∧
    (∀ content, env.readRaises = true →
      lookupFile fs.files (lockPathFor env p) = some content →
      refresh ⟨true, ConfVal.num q, ms⟩ env fs (some ⟨some ⟨some ⟨p⟩⟩, some mi⟩) =
        ⟨fs, Effect.logLockFail :: Effect.sleep q :: (dispatchAll active item).1,
          (dispatchAll active item).2⟩) := by
  subst hit
  refine ⟨fun hlk => ?_, fun hrd hlk => ?_, fun content hrd hlk hc hpe => ?_,
    fun content hrd hlk => ?_⟩
  · simp [refresh, hsv, hp, ConfVal.truthy, ConfVal.toFloat, hq.ne', lockStep,
      lockWrite, hmk, htc, hwr, hlk, dispatchPhase]
  · simp [refresh, hsv, hp, ConfVal.truthy, ConfVal.toFloat, hq.ne', lockStep,
      lockWrite, hmk, htc, hwr, hrd, hlk, dispatchPhase]
  · simp [refresh, hsv, hp, ConfVal.truthy, ConfVal.toFloat, hq.ne', lockStep,
      lockWrite, hmk, htc, hwr, hrd, hlk, hc, hpe, dispatchPhase]
  · simp [refresh, hsv, hp, ConfVal.truthy, ConfVal.toFloat, hq.ne', lockStep,
      lockWrite, hmk, htc, hwr, hrd, hlk, dispatchPhase]

/-- Witness for the amended C4 at a concrete input (absent-lock case). -/
theorem claim_C4_witness :
    refresh ⟨true, ConfVal.num 5, ["emby"]⟩
      ⟨"/config", fun _ => "h", [("emby", ⟨⟨false, true, true, false, false⟩⟩)],
        100, 100, false, false, false, false⟩
      ⟨[], []⟩
      (some ⟨some ⟨some ⟨"/media/movie"⟩⟩, some ⟨"T", "2024", "movie", "cat"⟩⟩) =
      ⟨⟨setFile
          ((lockPathFor
            ⟨"/config", fun _ => "h", [("emby", ⟨⟨false, true, true, false, false⟩⟩)],
              100, 100, false, false, false, false⟩ "/media/movie", "") :: [])
          (lockPathFor
            ⟨"/config", fun _ => "h", [("emby", ⟨⟨false, true, true, false, false⟩⟩)],
              100, 100, false, false, false, false⟩ "/media/movie")
          (floatToStr ((100 : ℚ) + 5)),
          lockDirFor
            ⟨"/config", fun _ => "h", [("emby", ⟨⟨false, true, true, false, false⟩⟩)],
              100, 100, false, false, false, false⟩ :: []⟩,
        Effect.sleep 5 ::
          (dispatchAll [("emby", ⟨⟨false, true, true, false, false⟩⟩)]
            ⟨"T", "2024", "movie", "cat", pathlibStr "/media/movie"⟩).1,
        (dispatchAll [("emby", ⟨⟨false, true, true, false, false⟩⟩)]
          ⟨"T", "2024", "movie", "cat", pathlibStr "/media/movie"⟩).2⟩ :=
  (claim_C4
    ⟨"/config", fun _ => "h", [("emby", ⟨⟨false, true, true, false, false⟩⟩)],
      100, 100, false, false, false, false⟩
    ⟨[], []⟩ 5 ["emby"] [("emby", ⟨⟨false, true, true, false, false⟩⟩)]
    "/media/movie" ⟨"T", "2024", "movie", "cat"⟩
    ⟨"T", "2024", "movie", "cat", pathlibStr "/media/movie"⟩
    (by decide) (by decide) (by decide) rfl (by decide) (by decide) (by decide)).1
    (by decide)

end MediaServerRefreshJuly
